import Mathlib

/-
Verification of the batch job lifecycle tracker
(src/trackbatchstatus/__init__.py) against its specification.

The tracker is a periodic sweep over a container of job-record blobs
(the "uploadtoopenai-response" container).  For each blob it parses the
stored JSON, extracts the remote batch id, polls the remote compute
service for the current status, unconditionally rewrites the stored
record with that status, saves output/error artifacts for terminal
statuses into the "batchjob-results" container, and relocates terminal
records into the outcome-partitioned "finalized-batches" container.

The embedding below is a shallow state-passing model of that code:
  * blob containers are association lists keyed by blob name;
  * the remote service is a record of functions returning Except,
    where an error value stands for a raised exception
    (TransientRemoteError / UnknownJobError / ArtifactNotFoundError);
  * storage operations that may raise are driven by explicit boolean
    fault flags carried alongside each processed record;
  * an event trace records every storage / remote operation that
    actually executes, so claims about "fetched at most once",
    "overwritten only when changed" and operation ordering are statable.
-/

namespace TrackBatchStatus

/-- Parsed content of a stored job-record blob.  `malformed` stands for a
blob whose bytes make json.loads raise.  `record idOpt status rest`
stands for a parsed JSON object: `idOpt` is the value of the "id" key
(none when absent), `status` the value of the "status" key, and `rest`
abstracts every other field of the payload (the raw submission-time
metadata), which the tracker never touches. -/
inductive BlobContent where
  | malformed : BlobContent
  | record : Option String → String → String → BlobContent
deriving DecidableEq

/-- The status payload returned by client.batches.retrieve. -/
structure BatchInfo where
  status : String
  input_file_id : String
  output_file_id : Option String
  error_file_id : Option String
deriving DecidableEq

/-- The remote compute service (AzureOpenAI client).  Each operation may
raise, modelled by Except.error. -/
structure Remote where
  batches : String → Except Unit BatchInfo
  filesRetrieve : String → Except Unit Unit
  filesContent : String → Except Unit String

/-- Fault-injection flags for the storage operations performed while
processing one record; true means that operation raises a StorageError
when attempted. -/
structure Faults where
  downloadRaises : Bool
  statusUploadRaises : Bool
  resultUploadRaises : Bool
  finalDownloadRaises : Bool
  finalUploadRaises : Bool
  deleteRaises : Bool
deriving DecidableEq

/-- All storage operations succeed. -/
def Faults.ok : Faults := ⟨false, false, false, false, false, false⟩

/-- One entry of the sweep's blob listing: the blob name together with
the fault script for the storage operations of its iteration. -/
structure RecEntry where
  name : String
  faults : Faults
deriving DecidableEq

/-- Trace of the storage / remote operations that actually execute. -/
inductive Event where
  | statusUpload : String → BlobContent → Event
  | resultFetch : String → Event
  | resultUpload : String → Event
  | finalDownload : String → Event
  | finalUpload : String → Event
  | sourceDelete : String → Event
deriving DecidableEq

/-- The storage state threaded through a sweep: the response container
(job record store), the batchjob-results container, the
finalized-batches container, and the event trace. -/
structure SweepState where
  resp : List (String × BlobContent)
  results : List (String × String)
  finalized : List (String × BlobContent)
  events : List Event
deriving DecidableEq

/-- Association-list lookup by key (first match). -/
def lookupA {α : Type} : List (String × α) → String → Option α
  | [], _ => Option.none
  | p :: rest, k => if p.1 == k then Option.some p.2 else lookupA rest k

/-- Association-list write with overwrite semantics: replace the entry
when the key is present, append otherwise (upload_blob overwrite). -/
def putA {α : Type} (store : List (String × α)) (k : String) (v : α) :
    List (String × α) :=
  if store.any (fun p => p.1 == k) then
    store.map (fun p => if p.1 == k then (k, v) else p)
  else store ++ [(k, v)]

/-- Association-list delete (delete_blob). -/
def delA {α : Type} (store : List (String × α)) (k : String) :
    List (String × α) :=
  store.filter (fun p => !(p.1 == k))

/-- Characters after the last slash: accumulator resets at each '/'. -/
def basenameAux : List Char → List Char → List Char
  | [], acc => acc
  | c :: rest, acc =>
    if c == '/' then basenameAux rest []
    else basenameAux rest (acc ++ [c])

/-- os.path.basename for slash-separated names. -/
def basename (s : String) : String := ⟨basenameAux s.data []⟩

/-- str.strip(): drop leading and trailing whitespace. -/
def pyStrip (s : String) : String :=
  ⟨((s.data.dropWhile Char.isWhitespace).reverse.dropWhile
      Char.isWhitespace).reverse⟩

/-- The folder_map.get(status, "others") lookup of move_to_finalized. -/
def folder_map (status : String) : String :=
  if status == "completed" then "completed"
  else if status == "failed" then "failed"
  else if status == "canceled" then "canceled"
  else "others"

/-- Embeds save_batch_file: if the artifact file id is falsy, log and
return; otherwise fetch the artifact content from the remote service and
upload it (overwrite) to the results container under
batch_id-file_type.jsonl.  Every exception is caught inside. -/
def save_batch_file (remote : Remote) (f : Faults) (file_id : Option String)
    (st : SweepState) (batch_id file_type : String) : SweepState :=
  match file_id with
  | Option.none => st
  | Option.some fid =>
    if fid == "" then st
    else
      match remote.filesContent fid with
      | Except.error _ => st
      | Except.ok text =>
        let key := batch_id ++ "-" ++ file_type ++ ".jsonl"
        if f.resultUploadRaises then
          { st with events := st.events ++ [Event.resultFetch fid] }
        else
          { st with
            results := putA st.results key (pyStrip text),
            events := st.events ++
              [Event.resultFetch fid, Event.resultUpload key] }

/-- Embeds move_to_finalized: compute the destination key from the
status partition and the basename of the blob name, download the source
blob, upload the copy (overwrite) to the finalized container, then
delete the source.  Every exception is caught inside, so a raise in an
earlier step simply leaves the remaining steps unexecuted. -/
def move_to_finalized (f : Faults) (st : SweepState)
    (blob_name status : String) : SweepState :=
  let folder := folder_map status
  let finalized_blob_name := folder ++ "/" ++ basename blob_name
  if f.finalDownloadRaises then st
  else
    match lookupA st.resp blob_name with
    | Option.none => st
    | Option.some content =>
      if f.finalUploadRaises then
        { st with events := st.events ++ [Event.finalDownload blob_name] }
      else
        let st1 := { st with
          finalized := putA st.finalized finalized_blob_name content,
          events := st.events ++
            [Event.finalDownload blob_name,
             Event.finalUpload finalized_blob_name] }
        if f.deleteRaises then st1
        else
          { st1 with
            resp := delA st1.resp blob_name,
            events := st1.events ++ [Event.sourceDelete blob_name] }

/-- Embeds lines 58-71 of main: save the output/error artifact for
completed/failed statuses, then relocate terminal records to the
finalized container. -/
def archivePhase (remote : Remote) (e : RecEntry) (binfo : BatchInfo)
    (st1 : SweepState) (batch_id : String) : SweepState :=
  let status := binfo.status
  let st2 :=
    if status == "completed" then
      save_batch_file remote e.faults binfo.output_file_id st1
        batch_id "output"
    else if status == "failed" then
      save_batch_file remote e.faults binfo.error_file_id st1
        batch_id "error"
    else st1
  if status == "completed" || status == "failed" ||
      status == "canceled" then
    move_to_finalized e.faults st2 e.name status
  else st2

/-- Embeds the inner try block of main (lines 45-76): poll the batch
status, retrieve the input-file info (logged only), unconditionally
rewrite the stored record with the polled status, then run the archival
phase.  Every exception inside this block is caught at the per-record
boundary, so this function returns the (possibly partially mutated)
state. -/
def innerTry (remote : Remote) (e : RecEntry) (st : SweepState)
    (batch_id rest : String) : SweepState :=
  match remote.batches batch_id with
  | Except.error _ => st
  | Except.ok binfo =>
    match remote.filesRetrieve binfo.input_file_id with
    | Except.error _ => st
    | Except.ok _ =>
      let newContent :=
        BlobContent.record (Option.some batch_id) binfo.status rest
      if e.faults.statusUploadRaises then st
      else
        let st1 := { st with
          resp := putA st.resp e.name newContent,
          events := st.events ++ [Event.statusUpload e.name newContent] }
        archivePhase remote e binfo st1 batch_id

/-- Embeds one iteration of the loop in main (lines 33-76).  The blob
download and json.loads (lines 35-36) happen OUTSIDE the inner try, so
an exception there escapes to the outer handler: Except.error means the
exception aborts the rest of the sweep, with no state change (nothing
was mutated yet).  A missing or empty "id" key is skipped with a
warning.  Everything from the status poll on is the inner try. -/
def processRecord (remote : Remote) (e : RecEntry) (st : SweepState) :
    Except Unit SweepState :=
  if e.faults.downloadRaises then Except.error ()
  else
    match lookupA st.resp e.name with
    | Option.none => Except.error ()
    | Option.some content =>
      match content with
      | BlobContent.malformed => Except.error ()
      | BlobContent.record idOpt _ rest =>
        match idOpt with
        | Option.none => Except.ok st
        | Option.some batch_id =>
          if batch_id == "" then Except.ok st
          else Except.ok (innerTry remote e st batch_id rest)

/-- Embeds main: iterate over the listed blobs; a per-record exception
that escapes the inner try (a failed blob download or a malformed
record) is caught by the OUTER handler (line 78), which aborts the
remainder of the sweep. -/
def main (remote : Remote) (entries : List RecEntry) (st : SweepState) :
    SweepState :=
  match entries with
  | [] => st
  | e :: restEntries =>
    match processRecord remote e st with
    | Except.error _ => st
    | Except.ok st1 => main remote restEntries st1

/-! ### Helper lemmas about the storage operations -/

theorem lookupA_map_replace {α : Type} (store : List (String × α))
    (k : String) (v : α) (h : store.any (fun p => p.1 == k) = true) :
    lookupA (store.map (fun p => if p.1 == k then (k, v) else p)) k =
      Option.some v := by
  induction store with
  | nil => simp at h
  | cons p rest ih =>
    cases hp : (p.1 == k) with
    | true => simp [lookupA, hp]
    | false =>
      simp only [List.any_cons, hp, Bool.false_or] at h
      simpa [lookupA, hp] using ih h

theorem lookupA_append_last {α : Type} (store : List (String × α))
    (k : String) (v : α) (h : store.any (fun p => p.1 == k) = false) :
    lookupA (store ++ [(k, v)]) k = Option.some v := by
  induction store with
  | nil => simp [lookupA]
  | cons p rest ih =>
    simp only [List.any_cons, Bool.or_eq_false_iff] at h
    simp [lookupA, h.1, ih h.2]

/-- Overwriting write followed by lookup at the same key yields the
written value. -/
theorem lookupA_putA {α : Type} (store : List (String × α))
    (k : String) (v : α) :
    lookupA (putA store k v) k = Option.some v := by
  unfold putA
  cases h : store.any (fun p => p.1 == k) with
  | true =>
    rw [if_pos rfl]
    exact lookupA_map_replace store k v h
  | false =>
    rw [if_neg (by simp)]
    exact lookupA_append_last store k v h

/-- Deletion followed by lookup at the deleted key yields none. -/
theorem lookupA_delA {α : Type} (store : List (String × α)) (k : String) :
    lookupA (delA store k) k = Option.none := by
  induction store with
  | nil => rfl
  | cons p rest ih =>
    cases hp : (p.1 == k) with
    | true => simpa [delA, List.filter_cons, hp] using ih
    | false => simpa [delA, List.filter_cons, hp, lookupA] using ih

/-! ### Concrete fixtures used by counterexamples and witnesses -/

/-- A remote whose only known batch "b1" reports completed with NO
output artifact reference. -/
def remoteA : Remote :=
  ⟨fun bid =>
      if bid == "b1" then
        Except.ok ⟨"completed", "in1", Option.none, Option.none⟩
      else Except.error (),
    fun _ => Except.ok (),
    fun _ => Except.error ()⟩

/-- Record store holding one in-progress record "r1" for batch "b1". -/
def st0 : SweepState :=
  ⟨[("r1", BlobContent.record (Option.some "b1") "in_progress" "m")],
    [], [], []⟩

/-! ### C1: Completed with no output artifact reference -/

/-- C1, as stated, is FALSE on the code: a record whose polled status is
completed but whose payload has no output file id is NOT reclassified as
failed.  save_batch_file merely logs a warning and returns, and the
record is archived under the completed partition: on the concrete run
below, no failed-partition entry exists, the completed-partition entry
does, and the stored status written back was "completed", not
"failed". -/
theorem c1_counterexample :
    lookupA (main remoteA [⟨"r1", Faults.ok⟩] st0).finalized
        ("failed" ++ "/" ++ "r1") = Option.none ∧
    lookupA (main remoteA [⟨"r1", Faults.ok⟩] st0).finalized
        ("completed" ++ "/" ++ "r1") =
      Option.some (BlobContent.record (Option.some "b1") "completed" "m") ∧
    Event.statusUpload "r1"
        (BlobContent.record (Option.some "b1") "completed" "m") ∈
      (main remoteA [⟨"r1", Faults.ok⟩] st0).events := by
  decide

/-- C1 amended: if the remote reports completed but supplies no output
artifact reference, the sweep does NOT reclassify the record as failed;
it writes no result artifact, stores the status "completed", and
archives the record under the completed partition (and the source record
is deleted). -/
theorem c1_completed_missing_output (remote : Remote)
    (name bid rest s0 : String) (st : SweepState) (binfo : BatchInfo)
    (hbid : (bid == "") = false)
    (hlook : lookupA st.resp name =
      Option.some (BlobContent.record (Option.some bid) s0 rest))
    (hb : remote.batches bid = Except.ok binfo)
    (hfr : remote.filesRetrieve binfo.input_file_id = Except.ok ())
    (hstat : binfo.status = "completed")
    (hout : binfo.output_file_id = Option.none) :
    (main remote [⟨name, Faults.ok⟩] st).results = st.results ∧
    lookupA (main remote [⟨name, Faults.ok⟩] st).finalized
        ("completed" ++ "/" ++ basename name) =
      Option.some (BlobContent.record (Option.some bid) "completed" rest) ∧
    lookupA (main remote [⟨name, Faults.ok⟩] st).resp name =
      Option.none := by
  refine ⟨?_, ?_, ?_⟩ <;>
  simp [main, processRecord, Faults.ok, hlook, hbid, innerTry, hb, hfr,
    hstat, hout, archivePhase, save_batch_file, move_to_finalized,
    folder_map, lookupA_putA, lookupA_delA]

/-- Witness for c1_completed_missing_output at the concrete fixture. -/
theorem c1_completed_missing_output_witness :
    (main remoteA [⟨"r1", Faults.ok⟩] st0).results = st0.results ∧
    lookupA (main remoteA [⟨"r1", Faults.ok⟩] st0).finalized
        ("completed" ++ "/" ++ basename "r1") =
      Option.some (BlobContent.record (Option.some "b1") "completed" "m") ∧
    lookupA (main remoteA [⟨"r1", Faults.ok⟩] st0).resp "r1" =
      Option.none :=
  c1_completed_missing_output remoteA "r1" "b1" "m" "in_progress" st0
    ⟨"completed", "in1", Option.none, Option.none⟩
    (by decide) rfl rfl rfl rfl rfl

/-! ### C2: no idempotence check before artifact fetch/persist -/

/-- A remote whose batch "b1" reports completed WITH output file "of1",
whose content is "NEWDATA". -/
def remoteB : Remote :=
  ⟨fun bid =>
      if bid == "b1" then
        Except.ok ⟨"completed", "in1", Option.some "of1", Option.none⟩
      else Except.error (),
    fun _ => Except.ok (),
    fun fid =>
      if fid == "of1" then Except.ok "NEWDATA" else Except.error ()⟩

/-- Pre-state where the result artifact for ("b1", output) ALREADY
exists in the results store. -/
def st2pre : SweepState :=
  ⟨[("r1", BlobContent.record (Option.some "b1") "in_progress" "m")],
    [("b1-output.jsonl", "OLD")], [], []⟩

/-- C2, as stated, is FALSE on the code: save_batch_file performs no
existence check against the results store.  On the concrete run below
the artifact for ("b1", output) is already present in the results store,
yet the sweep still fetches the remote artifact and uploads it,
overwriting the stored content. -/
theorem c2_counterexample :
    Event.resultFetch "of1" ∈
      (main remoteB [⟨"r1", Faults.ok⟩] st2pre).events ∧
    Event.resultUpload ("b1" ++ "-" ++ "output" ++ ".jsonl") ∈
      (main remoteB [⟨"r1", Faults.ok⟩] st2pre).events ∧
    lookupA (main remoteB [⟨"r1", Faults.ok⟩] st2pre).results
        ("b1" ++ "-" ++ "output" ++ ".jsonl") = Option.some "NEWDATA" := by
  decide

/-- C2 amended: no existence check is made.  On every processing of a
completed record with an output file id, the artifact is fetched from
the compute service and written (with overwrite) to the results store,
replacing any previously stored content for that key.  At-most-once
across sweeps holds only because a fully successful iteration deletes
the source record from the listing. -/
theorem c2_artifact_fetch_not_skipped (remote : Remote)
    (name bid rest s0 fid text : String) (st : SweepState)
    (binfo : BatchInfo)
    (hbid : (bid == "") = false)
    (hlook : lookupA st.resp name =
      Option.some (BlobContent.record (Option.some bid) s0 rest))
    (hb : remote.batches bid = Except.ok binfo)
    (hfr : remote.filesRetrieve binfo.input_file_id = Except.ok ())
    (hstat : binfo.status = "completed")
    (hout : binfo.output_file_id = Option.some fid)
    (hfid : (fid == "") = false)
    (hfc : remote.filesContent fid = Except.ok text) :
    Event.resultFetch fid ∈
      (main remote [⟨name, Faults.ok⟩] st).events ∧
    lookupA (main remote [⟨name, Faults.ok⟩] st).results
        (bid ++ "-" ++ "output" ++ ".jsonl") =
      Option.some (pyStrip text) := by
  refine ⟨?_, ?_⟩ <;>
  simp [main, processRecord, Faults.ok, hlook, hbid, innerTry, hb, hfr,
    hstat, hout, hfid, hfc, archivePhase, save_batch_file,
    move_to_finalized, folder_map, lookupA_putA, lookupA_delA]

/-- Witness for c2_artifact_fetch_not_skipped at the concrete fixture,
whose results store already holds content under the artifact key. -/
theorem c2_artifact_fetch_not_skipped_witness :
    Event.resultFetch "of1" ∈
      (main remoteB [⟨"r1", Faults.ok⟩] st2pre).events ∧
    lookupA (main remoteB [⟨"r1", Faults.ok⟩] st2pre).results
        ("b1" ++ "-" ++ "output" ++ ".jsonl") =
      Option.some (pyStrip "NEWDATA") :=
  c2_artifact_fetch_not_skipped remoteB "r1" "b1" "m" "in_progress"
    "of1" "NEWDATA" st2pre
    ⟨"completed", "in1", Option.some "of1", Option.none⟩
    (by decide) rfl rfl rfl rfl rfl (by decide) rfl

/-! ### C3: no archive-existence check before relocation -/

/-- Pre-state where the archive ALREADY holds an entry for the record
key, next to a live source record with different payload. -/
def st3pre : SweepState :=
  ⟨[("r1", BlobContent.record (Option.some "b1") "in_progress" "n2")],
    [],
    [("completed/r1", BlobContent.record (Option.some "b1") "completed" "n1")],
    []⟩

/-- C3, as stated, is FALSE on the code: move_to_finalized performs no
check of the archive.  On the concrete run below the archive already
holds an entry under completed/r1, yet the sweep downloads the source
again, performs a NEW archive upload and overwrites the archived
content. -/
theorem c3_counterexample :
    Event.finalUpload ("completed" ++ "/" ++ "r1") ∈
      (main remoteA [⟨"r1", Faults.ok⟩] st3pre).events ∧
    lookupA (main remoteA [⟨"r1", Faults.ok⟩] st3pre).finalized
        ("completed" ++ "/" ++ "r1") =
      Option.some (BlobContent.record (Option.some "b1") "completed" "n2") := by
  decide

/-- C3 amended: the relocation makes no archive-existence check.
Whenever the source record exists and no storage fault occurs, it
re-downloads the source, performs a fresh archive upload that overwrites
whatever the archive held at that key, and deletes the source.
Re-processing an archived job therefore converges to the same archive
key (no duplicate entries can arise) but is NOT a write-free no-op. -/
theorem c3_relocation_always_rewrites (st : SweepState)
    (name s : String) (content : BlobContent)
    (hlook : lookupA st.resp name = Option.some content) :
    lookupA (move_to_finalized Faults.ok st name s).finalized
        (folder_map s ++ "/" ++ basename name) = Option.some content ∧
    Event.finalUpload (folder_map s ++ "/" ++ basename name) ∈
      (move_to_finalized Faults.ok st name s).events ∧
    lookupA (move_to_finalized Faults.ok st name s).resp name =
      Option.none := by
  refine ⟨?_, ?_, ?_⟩ <;>
  simp [move_to_finalized, Faults.ok, hlook, lookupA_putA, lookupA_delA]

/-- Witness for c3_relocation_always_rewrites at a concrete state whose
archive already holds an older copy under the same key. -/
theorem c3_relocation_always_rewrites_witness :
    lookupA (move_to_finalized Faults.ok st3pre "r1" "completed").finalized
        (folder_map "completed" ++ "/" ++ basename "r1") =
      Option.some (BlobContent.record (Option.some "b1") "in_progress" "n2") ∧
    Event.finalUpload (folder_map "completed" ++ "/" ++ basename "r1") ∈
      (move_to_finalized Faults.ok st3pre "r1" "completed").events ∧
    lookupA (move_to_finalized Faults.ok st3pre "r1" "completed").resp
        "r1" = Option.none :=
  c3_relocation_always_rewrites st3pre "r1" "completed"
    (BlobContent.record (Option.some "b1") "in_progress" "n2") rfl

/-! ### Event-trace monotonicity of the archival phase -/

/-- save_batch_file only appends to the event trace. -/
theorem save_batch_file_events_extend (remote : Remote) (f : Faults)
    (fid : Option String) (st : SweepState) (bid ftype : String) :
    ∃ t, (save_batch_file remote f fid st bid ftype).events =
      st.events ++ t := by
  rcases fid with _ | x
  · exact ⟨[], (List.append_nil _).symm⟩
  · simp only [save_batch_file]
    split
    · exact ⟨[], (List.append_nil _).symm⟩
    · cases hc : remote.filesContent x with
      | error u =>
        simp only [hc]
        exact ⟨[], (List.append_nil _).symm⟩
      | ok text =>
        simp only [hc]
        split
        · exact ⟨[Event.resultFetch x], rfl⟩
        · exact ⟨[Event.resultFetch x,
            Event.resultUpload (bid ++ "-" ++ ftype ++ ".jsonl")], rfl⟩

/-- move_to_finalized only appends to the event trace. -/
theorem move_to_finalized_events_extend (f : Faults) (st : SweepState)
    (blob_name status : String) :
    ∃ t, (move_to_finalized f st blob_name status).events =
      st.events ++ t := by
  simp only [move_to_finalized]
  split
  · exact ⟨[], (List.append_nil _).symm⟩
  · cases hl : lookupA st.resp blob_name with
    | none =>
      simp only [hl]
      exact ⟨[], (List.append_nil _).symm⟩
    | some content =>
      simp only [hl]
      split
      · exact ⟨[Event.finalDownload blob_name], rfl⟩
      · split
        · exact ⟨[Event.finalDownload blob_name,
            Event.finalUpload
              (folder_map status ++ "/" ++ basename blob_name)], rfl⟩
        · exact ⟨[Event.finalDownload blob_name,
            Event.finalUpload
              (folder_map status ++ "/" ++ basename blob_name),
            Event.sourceDelete blob_name], by simp⟩

/-- The whole archival phase only appends to the event trace. -/
theorem archivePhase_events_extend (remote : Remote) (e : RecEntry)
    (binfo : BatchInfo) (st1 : SweepState) (batch_id : String) :
    ∃ t, (archivePhase remote e binfo st1 batch_id).events =
      st1.events ++ t := by
  have hst2 : ∃ t1,
      (if binfo.status == "completed" then
        save_batch_file remote e.faults binfo.output_file_id st1
          batch_id "output"
      else if binfo.status == "failed" then
        save_batch_file remote e.faults binfo.error_file_id st1
          batch_id "error"
      else st1).events = st1.events ++ t1 := by
    split
    · exact save_batch_file_events_extend remote e.faults
        binfo.output_file_id st1 batch_id "output"
    · split
      · exact save_batch_file_events_extend remote e.faults
          binfo.error_file_id st1 batch_id "error"
      · exact ⟨[], (List.append_nil _).symm⟩
  obtain ⟨t1, h1⟩ := hst2
  simp only [archivePhase]
  split
  · obtain ⟨t2, h2⟩ := move_to_finalized_events_extend e.faults
      (if binfo.status == "completed" then
        save_batch_file remote e.faults binfo.output_file_id st1
          batch_id "output"
      else if binfo.status == "failed" then
        save_batch_file remote e.faults binfo.error_file_id st1
          batch_id "error"
      else st1) e.name binfo.status
    exact ⟨t1 ++ t2, by rw [h2, h1, List.append_assoc]⟩
  · exact ⟨t1, h1⟩

/-! ### C4: per-record failure isolation -/

/-- A remote whose only known batch is "b2", still in progress. -/
def remoteC4 : Remote :=
  ⟨fun bid =>
      if bid == "b2" then
        Except.ok ⟨"in_progress", "in2", Option.none, Option.none⟩
      else Except.error (),
    fun _ => Except.ok (),
    fun _ => Except.error ()⟩

/-- Store with a malformed record listed before a healthy one. -/
def st4pre : SweepState :=
  ⟨[("bad", BlobContent.malformed),
    ("r2", BlobContent.record (Option.some "b2") "submitted" "m")],
    [], [], []⟩

/-- Store with a record whose batch id is unknown to the remote, listed
before a healthy one. -/
def st4iso : SweepState :=
  ⟨[("r1", BlobContent.record (Option.some "bX") "in_progress" "m"),
    ("r2", BlobContent.record (Option.some "b2") "submitted" "m")],
    [], [], []⟩

/-- C4, as stated, is FALSE on the code: the blob download and
json.loads happen OUTSIDE the per-record try block, so a malformed
stored record aborts the remainder of the sweep.  On the concrete run
below, the first listed record is malformed and the second record is
never processed: its stored status stays "submitted" (a successful
sweep iteration would have rewritten it to "in_progress") and no
storage operation at all is performed. -/
theorem c4_counterexample :
    lookupA (main remoteC4 [⟨"bad", Faults.ok⟩, ⟨"r2", Faults.ok⟩]
        st4pre).resp "r2" =
      Option.some (BlobContent.record (Option.some "b2") "submitted" "m") ∧
    (main remoteC4 [⟨"bad", Faults.ok⟩, ⟨"r2", Faults.ok⟩]
        st4pre).events = [] ∧
    lookupA (main remoteC4 [⟨"r2", Faults.ok⟩] st4pre).resp "r2" =
      Option.some (BlobContent.record (Option.some "b2") "in_progress" "m") := by
  decide

/-- C4 amended: only exceptions raised from the status poll onward (the
inner try: remote calls, status write-back, archival) are caught at the
per-record boundary; for those, the sweep leaves the record untouched
and processes the remaining records exactly as if the failing record
had not been listed.  An exception while downloading or parsing a
stored record instead escapes to the outer handler and aborts the
remainder of the sweep. -/
theorem c4_remote_error_isolated (remote : Remote) (e : RecEntry)
    (rest : List RecEntry) (st : SweepState) (bid s0 r : String)
    (hdl : e.faults.downloadRaises = false)
    (hlook : lookupA st.resp e.name =
      Option.some (BlobContent.record (Option.some bid) s0 r))
    (hbid : (bid == "") = false)
    (hb : remote.batches bid = Except.error ()) :
    main remote (e :: rest) st = main remote rest st := by
  simp [main, processRecord, hdl, hlook, hbid, innerTry, hb]

/-- Witness for c4_remote_error_isolated: the record with the unknown
batch id is skipped and the rest of the sweep proceeds unchanged. -/
theorem c4_remote_error_isolated_witness :
    main remoteC4 [⟨"r1", Faults.ok⟩, ⟨"r2", Faults.ok⟩] st4iso =
      main remoteC4 [⟨"r2", Faults.ok⟩] st4iso :=
  c4_remote_error_isolated remoteC4 ⟨"r1", Faults.ok⟩
    [⟨"r2", Faults.ok⟩] st4iso "bX" "in_progress" "m"
    rfl rfl (by decide) rfl

/-! ### C5: UnknownJobError handling -/

/-- A remote that raises on every status poll (UnknownJobError). -/
def remote5 : Remote :=
  ⟨fun _ => Except.error (),
    fun _ => Except.ok (),
    fun _ => Except.error ()⟩

/-- C5, as stated, is FALSE on the code: when the status poll raises
(remote has no knowledge of the job), the exception is merely logged;
the record's stored status stays "in_progress" instead of becoming
"failed", and nothing is archived. -/
theorem c5_counterexample :
    lookupA (main remote5 [⟨"r1", Faults.ok⟩] st0).resp "r1" =
      Option.some (BlobContent.record (Option.some "b1") "in_progress" "m") ∧
    (main remote5 [⟨"r1", Faults.ok⟩] st0).finalized = [] ∧
    (main remote5 [⟨"r1", Faults.ok⟩] st0).events = [] := by
  decide

/-- C5 amended: a status poll that raises (UnknownJobError or any other
exception from batches.retrieve) is caught and logged at the per-record
boundary; the sweep leaves the whole state unchanged for that record
(no Failed transition, no artifact fetch, no archival) and the record
is simply polled again on the next sweep. -/
theorem c5_unknown_job_no_transition (remote : Remote) (e : RecEntry)
    (st : SweepState) (bid s0 r : String)
    (hdl : e.faults.downloadRaises = false)
    (hlook : lookupA st.resp e.name =
      Option.some (BlobContent.record (Option.some bid) s0 r))
    (hbid : (bid == "") = false)
    (hb : remote.batches bid = Except.error ()) :
    main remote [e] st = st := by
  simp [main, processRecord, hdl, hlook, hbid, innerTry, hb]

/-- Witness for c5_unknown_job_no_transition on the concrete store. -/
theorem c5_unknown_job_no_transition_witness :
    main remote5 [⟨"r1", Faults.ok⟩] st0 = st0 :=
  c5_unknown_job_no_transition remote5 ⟨"r1", Faults.ok⟩ st0
    "b1" "in_progress" "m" rfl rfl (by decide) rfl

/-! ### C6: no monotonicity of the stored status -/

/-- A remote reporting batch "b1" as "validating" — an EARLIER state
than the stored "in_progress". -/
def remote6 : Remote :=
  ⟨fun bid =>
      if bid == "b1" then
        Except.ok ⟨"validating", "in1", Option.none, Option.none⟩
      else Except.error (),
    fun _ => Except.ok (),
    fun _ => Except.error ()⟩

/-- C6, as stated, is FALSE on the code: the stored status is replaced
by whatever the remote reports, with no monotonicity check.  On the
concrete run below a record stored as "in_progress" regresses to
"validating" (an earlier non-terminal status) after the poll. -/
theorem c6_counterexample :
    lookupA (main remote6 [⟨"r1", Faults.ok⟩] st0).resp "r1" =
      Option.some
        (BlobContent.record (Option.some "b1") "validating" "m") := by
  decide

/-- C6 amended: on every successful poll the stored status is
unconditionally replaced by the polled remote status — the stored value
is never consulted, so the stored status regresses whenever the remote
reports an earlier status. -/
theorem c6_status_unconditionally_replaced (remote : Remote)
    (name bid rest s0 : String) (st : SweepState) (binfo : BatchInfo)
    (hbid : (bid == "") = false)
    (hlook : lookupA st.resp name =
      Option.some (BlobContent.record (Option.some bid) s0 rest))
    (hb : remote.batches bid = Except.ok binfo)
    (hfr : remote.filesRetrieve binfo.input_file_id = Except.ok ())
    (hnc : (binfo.status == "completed") = false)
    (hnf : (binfo.status == "failed") = false)
    (hncl : (binfo.status == "canceled") = false) :
    lookupA (main remote [⟨name, Faults.ok⟩] st).resp name =
      Option.some
        (BlobContent.record (Option.some bid) binfo.status rest) := by
  simp [main, processRecord, Faults.ok, hlook, hbid, innerTry, hb, hfr,
    archivePhase, hnc, hnf, hncl, lookupA_putA]

/-- Witness for c6_status_unconditionally_replaced: the stored
"in_progress" regresses to the polled "validating". -/
theorem c6_status_unconditionally_replaced_witness :
    lookupA (main remote6 [⟨"r1", Faults.ok⟩] st0).resp "r1" =
      Option.some
        (BlobContent.record (Option.some "b1") "validating" "m") :=
  c6_status_unconditionally_replaced remote6 "r1" "b1" "m" "in_progress"
    st0 ⟨"validating", "in1", Option.none, Option.none⟩
    (by decide) rfl rfl rfl rfl rfl rfl

/-! ### C7: unconditional overwrite of the stored record -/

/-- A remote reporting batch "b1" with exactly the status already
stored ("in_progress"). -/
def remote7 : Remote :=
  ⟨fun bid =>
      if bid == "b1" then
        Except.ok ⟨"in_progress", "in1", Option.none, Option.none⟩
      else Except.error (),
    fun _ => Except.ok (),
    fun _ => Except.error ()⟩

/-- C7, as stated, is FALSE on the code: there is no comparison between
polled and stored status.  On the concrete run below the polled status
equals the stored one, yet the record is still uploaded (overwritten) —
the claim requires it to be left unchanged with no write. -/
theorem c7_counterexample :
    Event.statusUpload "r1"
        (BlobContent.record (Option.some "b1") "in_progress" "m") ∈
      (main remote7 [⟨"r1", Faults.ok⟩] st0).events := by
  decide

/-- C7 amended: on every successful poll the stored record is
overwritten unconditionally — also when the polled status equals the
stored one — and the written content replaces only the status field,
keeping every other stored field (in particular the submission-time raw
metadata) unchanged and writing no fresh last-checked timestamp. -/
theorem c7_overwrite_every_poll (remote : Remote)
    (name bid rest s0 : String) (st : SweepState) (binfo : BatchInfo)
    (hbid : (bid == "") = false)
    (hlook : lookupA st.resp name =
      Option.some (BlobContent.record (Option.some bid) s0 rest))
    (hb : remote.batches bid = Except.ok binfo)
    (hfr : remote.filesRetrieve binfo.input_file_id = Except.ok ()) :
    Event.statusUpload name
        (BlobContent.record (Option.some bid) binfo.status rest) ∈
      (main remote [⟨name, Faults.ok⟩] st).events := by
  have hred : main remote [⟨name, Faults.ok⟩] st =
      archivePhase remote ⟨name, Faults.ok⟩ binfo
        { resp := putA st.resp name
            (BlobContent.record (Option.some bid) binfo.status rest),
          results := st.results,
          finalized := st.finalized,
          events := st.events ++ [Event.statusUpload name
            (BlobContent.record (Option.some bid) binfo.status rest)] }
        bid := by
    simp [main, processRecord, Faults.ok, hlook, hbid, innerTry, hb, hfr]
  rw [hred]
  obtain ⟨t, ht⟩ := archivePhase_events_extend remote ⟨name, Faults.ok⟩
    binfo _ bid
  rw [ht]
  simp

/-- Witness for c7_overwrite_every_poll: a write occurs although the
polled status equals the stored one. -/
theorem c7_overwrite_every_poll_witness :
    Event.statusUpload "r1"
        (BlobContent.record (Option.some "b1") "in_progress" "m") ∈
      (main remote7 [⟨"r1", Faults.ok⟩] st0).events :=
  c7_overwrite_every_poll remote7 "r1" "b1" "m" "in_progress" st0
    ⟨"in_progress", "in1", Option.none, Option.none⟩
    (by decide) rfl rfl rfl

/-! ### C8: status persisted before archival, no rollback -/

/-- Fault script where only the upload into the finalized container
raises (the archival fails after the status write). -/
def faultsFU : Faults := ⟨false, false, false, false, true, false⟩

/-- C8 confirmed: within one record the polled status is persisted to
the record store strictly before any archival operation (the event
trace of the iteration begins with the status upload), and a failure
during archival does not roll it back: the record is still stored with
its terminal status, and the next sweep (here with no faults) completes
the archival. -/
theorem c8_status_persisted_before_archival (remote : Remote)
    (name bid rest s0 : String) (st : SweepState) (binfo : BatchInfo)
    (hbid : (bid == "") = false)
    (hlook : lookupA st.resp name =
      Option.some (BlobContent.record (Option.some bid) s0 rest))
    (hb : remote.batches bid = Except.ok binfo)
    (hfr : remote.filesRetrieve binfo.input_file_id = Except.ok ())
    (hstat : binfo.status = "completed")
    (hout : binfo.output_file_id = Option.none) :
    ∃ tail,
      (main remote [⟨name, faultsFU⟩] st).events =
        st.events ++ Event.statusUpload name
          (BlobContent.record (Option.some bid) "completed" rest) :: tail ∧
      lookupA (main remote [⟨name, faultsFU⟩] st).resp name =
        Option.some
          (BlobContent.record (Option.some bid) "completed" rest) ∧
      lookupA (main remote [⟨name, Faults.ok⟩]
          (main remote [⟨name, faultsFU⟩] st)).finalized
        ("completed" ++ "/" ++ basename name) =
        Option.some
          (BlobContent.record (Option.some bid) "completed" rest) := by
  have h2 : lookupA (main remote [⟨name, faultsFU⟩] st).resp name =
      Option.some
        (BlobContent.record (Option.some bid) "completed" rest) := by
    simp [main, processRecord, faultsFU, hlook, hbid, innerTry, hb, hfr,
      hstat, hout, archivePhase, save_batch_file, move_to_finalized,
      folder_map, lookupA_putA]
  refine ⟨[Event.finalDownload name], ?_, h2, ?_⟩
  · simp [main, processRecord, faultsFU, hlook, hbid, innerTry, hb, hfr,
      hstat, hout, archivePhase, save_batch_file, move_to_finalized,
      folder_map, lookupA_putA]
  · generalize hMid : main remote [⟨name, faultsFU⟩] st = stMid
    rw [hMid] at h2
    simp [main, processRecord, Faults.ok, h2, hbid, innerTry, hb, hfr,
      hstat, hout, archivePhase, save_batch_file, move_to_finalized,
      folder_map, lookupA_putA]

/-- Witness for c8_status_persisted_before_archival: with the archive
upload failing, the status write still lands first and survives, and
the next clean sweep archives the record. -/
theorem c8_status_persisted_before_archival_witness :
    ∃ tail,
      (main remoteA [⟨"r1", faultsFU⟩] st0).events =
        st0.events ++ Event.statusUpload "r1"
          (BlobContent.record (Option.some "b1") "completed" "m") :: tail ∧
      lookupA (main remoteA [⟨"r1", faultsFU⟩] st0).resp "r1" =
        Option.some
          (BlobContent.record (Option.some "b1") "completed" "m") ∧
      lookupA (main remoteA [⟨"r1", Faults.ok⟩]
          (main remoteA [⟨"r1", faultsFU⟩] st0)).finalized
        ("completed" ++ "/" ++ basename "r1") =
        Option.some
          (BlobContent.record (Option.some "b1") "completed" "m") :=
  c8_status_persisted_before_archival remoteA "r1" "b1" "m"
    "in_progress" st0 ⟨"completed", "in1", Option.none, Option.none⟩
    (by decide) rfl rfl rfl rfl rfl

/-! ### C9: storage key shapes -/

/-- C9, as stated, is FALSE on the code: the results-store key carries a
.jsonl extension.  On the concrete run below no artifact is stored under
"b1-output"; it is stored under "b1-output.jsonl". -/
theorem c9_counterexample :
    lookupA (main remoteB [⟨"r1", Faults.ok⟩] st0).results
        ("b1" ++ "-" ++ "output") = Option.none ∧
    lookupA (main remoteB [⟨"r1", Faults.ok⟩] st0).results
        ("b1" ++ "-" ++ "output" ++ ".jsonl") =
      Option.some "NEWDATA" := by
  decide

/-- C9 amended: the results-store key is
batch_id ++ "-" ++ kind ++ ".jsonl" (with the extension), and the
archive key is partition/basename(originalRecordKey), where the
partition is the terminal status name for completed, failed and
canceled and "others" for any other status value. -/
theorem c9_storage_keys (remote : Remote)
    (fid text name s bid ftype : String) (st stm : SweepState)
    (content : BlobContent)
    (hfid : (fid == "") = false)
    (hfc : remote.filesContent fid = Except.ok text)
    (hlook : lookupA stm.resp name = Option.some content) :
    (save_batch_file remote Faults.ok (Option.some fid) st
        bid ftype).results =
      putA st.results (bid ++ "-" ++ ftype ++ ".jsonl") (pyStrip text) ∧
    (move_to_finalized Faults.ok stm name s).finalized =
      putA stm.finalized (folder_map s ++ "/" ++ basename name) content ∧
    folder_map "completed" = "completed" ∧
    folder_map "failed" = "failed" ∧
    folder_map "canceled" = "canceled" ∧
    ((s == "completed") = false → (s == "failed") = false →
      (s == "canceled") = false → folder_map s = "others") := by
  refine ⟨?_, ?_, rfl, rfl, rfl, ?_⟩
  · simp [save_batch_file, Faults.ok, hfid, hfc]
  · simp [move_to_finalized, Faults.ok, hlook]
  · intro h1 h2 h3
    simp [folder_map, h1, h2, h3]

/-- Witness for c9_storage_keys with an unmapped terminal status, whose
partition is "others". -/
theorem c9_storage_keys_witness :
    (save_batch_file remoteB Faults.ok (Option.some "of1") st0
        "b1" "output").results =
      putA st0.results ("b1" ++ "-" ++ "output" ++ ".jsonl")
        (pyStrip "NEWDATA") ∧
    (move_to_finalized Faults.ok st0 "r1" "expired").finalized =
      putA st0.finalized (folder_map "expired" ++ "/" ++ basename "r1")
        (BlobContent.record (Option.some "b1") "in_progress" "m") ∧
    folder_map "completed" = "completed" ∧
    folder_map "failed" = "failed" ∧
    folder_map "canceled" = "canceled" ∧
    (("expired" == "completed") = false → ("expired" == "failed") = false →
      ("expired" == "canceled") = false → folder_map "expired" = "others") :=
  c9_storage_keys remoteB "of1" "NEWDATA" "r1" "expired" "b1" "output"
    st0 st0 (BlobContent.record (Option.some "b1") "in_progress" "m")
    (by decide) rfl rfl

/-! ### C10: no record loss by partial relocation -/

/-- C10 confirmed: move_to_finalized deletes the source only after the
copy into the archive succeeded.  If the download or the archive upload
raises, the source record (and the archive) are left untouched; and
whenever the source record is gone after the call, the archive holds
its copy under the partition key. -/
theorem c10_source_preserved_on_partial_relocation (f : Faults)
    (st : SweepState) (name s : String) (content : BlobContent)
    (hsrc : lookupA st.resp name = Option.some content) :
    ((f.finalDownloadRaises = true ∨ f.finalUploadRaises = true) →
      (move_to_finalized f st name s).resp = st.resp ∧
      (move_to_finalized f st name s).finalized = st.finalized) ∧
    (lookupA (move_to_finalized f st name s).resp name = Option.none →
      lookupA (move_to_finalized f st name s).finalized
        (folder_map s ++ "/" ++ basename name) =
        Option.some content) := by
  cases hfd : f.finalDownloadRaises with
  | true =>
    constructor
    · intro _
      constructor <;> simp [move_to_finalized, hfd]
    · intro h
      rw [show move_to_finalized f st name s = st by
        simp [move_to_finalized, hfd]] at h
      rw [hsrc] at h
      exact absurd h (by simp)
  | false =>
    cases hfu : f.finalUploadRaises with
    | true =>
      have hm : (move_to_finalized f st name s).resp = st.resp ∧
          (move_to_finalized f st name s).finalized = st.finalized := by
        constructor <;> simp [move_to_finalized, hfd, hsrc, hfu]
      refine ⟨fun _ => hm, fun h => ?_⟩
      rw [hm.1, hsrc] at h
      exact absurd h (by simp)
    | false =>
      cases hdel : f.deleteRaises with
      | true =>
        refine ⟨fun hcontra => ?_, fun h => ?_⟩
        · rcases hcontra with h | h <;> simp [hfd, hfu] at h
        · have hresp : (move_to_finalized f st name s).resp = st.resp := by
            simp [move_to_finalized, hfd, hsrc, hfu, hdel]
          rw [hresp, hsrc] at h
          exact absurd h (by simp)
      | false =>
        refine ⟨fun hcontra => ?_, fun _ => ?_⟩
        · rcases hcontra with h | h <;> simp [hfd, hfu] at h
        · simp [move_to_finalized, hfd, hsrc, hfu, hdel, lookupA_putA]

/-- Witness for c10_source_preserved_on_partial_relocation with a
failing archive upload: the source record survives untouched. -/
theorem c10_source_preserved_witness :
    ((faultsFU.finalDownloadRaises = true ∨
        faultsFU.finalUploadRaises = true) →
      (move_to_finalized faultsFU st0 "r1" "completed").resp = st0.resp ∧
      (move_to_finalized faultsFU st0 "r1" "completed").finalized =
        st0.finalized) ∧
    (lookupA (move_to_finalized faultsFU st0 "r1" "completed").resp
        "r1" = Option.none →
      lookupA (move_to_finalized faultsFU st0 "r1" "completed").finalized
        (folder_map "completed" ++ "/" ++ basename "r1") =
        Option.some
          (BlobContent.record (Option.some "b1") "in_progress" "m")) :=
  c10_source_preserved_on_partial_relocation faultsFU st0 "r1"
    "completed" (BlobContent.record (Option.some "b1") "in_progress" "m")
    rfl

end TrackBatchStatus
